import Mathlib

set_option maxHeartbeats 1000000

/-!
Shallow embedding of `src/main.ts` of the `cancel-previous-runs` GitHub
action.  The external collaborators (the octokit run-lookup, run-listing
and cancel endpoints, the process environment and the `github-token`
input) are modelled as oracle fields of a `World`; the program logic
(workflow resolution, page collection into a `jstreemap.TreeMap`,
the duplicate-cancellation loop, `cancelRun`, `run` and
`getRequiredEnv`) is translated statement by statement.

JavaScript string primitives used by the source (`split`, `startsWith`,
first-occurrence `replace`, relational `>=` on strings) are embedded as
structurally recursive functions on `List Char` so that every
definition evaluates inside the kernel.
-/

namespace CancelPreviousRuns

/-- JS `s.split(c)` for a one-character separator: splits on every
occurrence, keeping empty segments (`"a/".split('/') = ["a",""]`,
`"".split('/') = [""]`). -/
def splitOnChar (c : Char) : List Char → List (List Char)
  | [] => [[]]
  | x :: xs =>
    match splitOnChar c xs with
    | [] => [[x]]
    | h :: t => if x = c then [] :: h :: t else (x :: h) :: t

/-- JS `s.split(c)` lifted to `String`. -/
def jsSplit (s : String) (c : Char) : List String :=
  (splitOnChar c s.data).map String.mk

/-- JS `s.startsWith(pre)`. -/
def startsWithStr (s pre : String) : Bool :=
  pre.data.isPrefixOf s.data

/-- Replace the first occurrence of `pat` (JS `String.prototype.replace`
with a string pattern replaces only the first match). -/
def jsReplaceFirstAux (pat repl : List Char) : List Char → List Char
  | [] => []
  | x :: xs =>
    if pat.isPrefixOf (x :: xs) then repl ++ (x :: xs).drop pat.length
    else x :: jsReplaceFirstAux pat repl xs

/-- JS `s.replace(pat, repl)` (first occurrence only). -/
def jsReplaceFirst (s pat repl : String) : String :=
  ⟨jsReplaceFirstAux pat.data repl.data s.data⟩

/-- Lexicographic `<` on character lists, comparing code points the way
JS compares strings code unit by code unit. -/
def ltCharList : List Char → List Char → Bool
  | [], [] => false
  | [], _ :: _ => true
  | _ :: _, [] => false
  | a :: as, b :: bs =>
    if a.toNat < b.toNat then true
    else if b.toNat < a.toNat then false
    else ltCharList as bs

/-- JS `a < b` on two strings: lexicographic comparison. -/
def jsStrLT (a b : String) : Bool :=
  ltCharList a.data b.data

/-- JS `a >= b` on two strings: the negation of lexicographic `<`.
This is the comparison the source performs in `if (runId >= selfRunId)`,
because `runId = element.id.toString()` and `selfRunId` are both
strings. -/
def jsStrGE (a b : String) : Bool :=
  !(jsStrLT a b)

/-- One sibling workflow run as the source consumes it: `element.id`,
`element.run_number`, `element.status`, `element.event`,
`element.workflow_url`. -/
structure RunRecord where
  id : Nat
  run_number : Nat
  status : String
  event : String
  workflow_url : String
  deriving DecidableEq, Repr

/-- The `jstreemap.TreeMap<number, any>` used by `cancelDuplicates`,
modelled as an association list sorted strictly ascending by key. -/
abbrev TreeMapModel := List (Nat × RunRecord)

/-- `sorted.set(k, v)`: ordered insert that overwrites an existing key. -/
def tmSet (m : TreeMapModel) (k : Nat) (v : RunRecord) : TreeMapModel :=
  match m with
  | [] => [(k, v)]
  | (k1, v1) :: rest =>
    if k < k1 then (k, v) :: (k1, v1) :: rest
    else if k = k1 then (k, v) :: rest
    else (k1, v1) :: tmSet rest k v

/-- `sorted.get(k)`-style lookup on the association list. -/
def tmLookup (m : TreeMapModel) (k : Nat) : Option RunRecord :=
  match m with
  | [] => none
  | (k1, v1) :: rest => if k = k1 then some v1 else tmLookup rest k

/-- `sorted.backward()`: iterate the map in descending key order. -/
def backward (m : TreeMapModel) : List (Nat × RunRecord) :=
  m.reverse

/-- One page as delivered by `octokit.paginate.iterator`: either the
expected shape where `item.data` is the array of runs itself (so
`item.data.length` is defined), or the variant shape where `item.data`
is an object whose `workflow_runs` field holds the array (so
`item.data.length` is `undefined`). -/
inductive PageData where
  | arrayShape (runs : List RunRecord)
  | wrappedShape (runs : List RunRecord)
  deriving DecidableEq, Repr

/-- `item.data.length === undefined ? item.data.workflow_runs : item.data`:
on the array shape `length` is defined and the ternary returns the array,
on the wrapped shape `length` is `undefined` and the ternary returns the
nested `workflow_runs` array. -/
def pageElements : PageData → List RunRecord
  | PageData.arrayShape runs => runs
  | PageData.wrappedShape runs => runs

/-- `for (const element of elements) sorted.set(element.run_number, element)`. -/
def insertRuns (runs : List RunRecord) (m : TreeMapModel) : TreeMapModel :=
  runs.foldl (fun acc e => tmSet acc e.run_number e) m

/-- Merge every page of one paginated listing into the tree map. -/
def collectPages (pages : List PageData) (m : TreeMapModel) : TreeMapModel :=
  pages.foldl (fun acc p => insertRuns (pageElements p) acc) m

/-- The three skip rules of the processing loop, in source order:
`runId >= selfRunId` (string comparison), `'completed' === element.status`,
`!['push', 'pull_request'].includes(event)`.  A record is a cancellation
target exactly when all three are false. -/
def shouldCancel (selfRunId : String) (e : RunRecord) : Bool :=
  if jsStrGE (toString e.id) selfRunId then false
  else if e.status == "completed" then false
  else if !(["push", "pull_request"].contains e.event) then false
  else true

/-- The Duplicate Policy: the ordered sequence of records the loop in
`cancelDuplicates` passes to `cancelRun`, i.e. the descending-order
traversal (`sorted.backward()`, `element = entry[1]`) filtered by the
three skip rules. -/
def cancelTargets (m : TreeMapModel) (selfRunId : String) : List RunRecord :=
  ((backward m).map Prod.snd).filter (shouldCancel selfRunId)

/-- Failure reported by the cancel collaborator: `error.status` and
`error.message`. -/
structure CancelErr where
  status : Nat
  message : String
  deriving DecidableEq, Repr

/-- The external collaborators of one invocation.
`getInputToken` is `core.getInput('github-token')`; `env` is
`process.env`; `workflowRunLookup` is the `octokit.actions.getWorkflowRun`
reply's `data.workflow_url` (or its rejection message); `listing` maps a
status filter to the fully paginated pages (or the rejection message of
the pagination); `cancel` is `octokit.actions.cancelWorkflowRun` keyed by
the target run id, returning `reply.status` on success. -/
structure World where
  getInputToken : String
  env : String → Option String
  workflowRunLookup : Except String String
  listing : String → Except String (List PageData)
  cancel : Nat → Except CancelErr Nat

/-- Observable log output: `core.info` and `core.warning` lines. -/
inductive LogEntry where
  | info (msg : String)
  | warning (msg : String)
  deriving DecidableEq, Repr

/-- `cancelRun`: try the cancel collaborator, log success at info level,
catch any error and log it at warning level; never propagate. -/
def cancelRun (w : World) (id : Nat) : List LogEntry :=
  match w.cancel id with
  | Except.ok st =>
    [LogEntry.info ("Previous run (id " ++ toString id ++ ") cancelled, status = "
      ++ toString st)]
  | Except.error e =>
    [LogEntry.warning ("Could not cancel run (id " ++ toString id ++ "): ["
      ++ toString e.status ++ "] " ++ e.message)]

/-- The `Processing run ID: ...` info line printed for every entry. -/
def procLog (e : RunRecord) : LogEntry :=
  LogEntry.info ("Processing run ID: " ++ toString e.id ++ " [" ++ e.event
    ++ " : " ++ e.workflow_url ++ " : " ++ e.status ++ " : "
    ++ toString e.run_number ++ "]")

/-- The body of `for (const entry of sorted.backward())`, threading the
accumulated logs and the list of run ids on which a cancel was attempted. -/
def processEntry (w : World) (selfRunId : String)
    (acc : List LogEntry × List Nat) (e : RunRecord) :
    List LogEntry × List Nat :=
  if jsStrGE (toString e.id) selfRunId then
    (acc.1 ++ [procLog e, LogEntry.info ("Skipping larger run ID: " ++ toString e.id)],
      acc.2)
  else if e.status == "completed" then
    (acc.1 ++ [procLog e, LogEntry.info ("Skipping completed run ID: " ++ toString e.id)],
      acc.2)
  else if !(["push", "pull_request"].contains e.event) then
    (acc.1 ++ [procLog e,
      LogEntry.info ("Skipping completed or non-event matching run ID: " ++ toString e.id)],
      acc.2)
  else
    (acc.1 ++ [procLog e, LogEntry.info ("Cancelling run ID: " ++ toString e.id)]
        ++ cancelRun w e.id,
      acc.2 ++ [e.id])

/-- Observable outcome of one `cancelDuplicates` promise: its logs, the
run ids it attempted to cancel, and—when the promise rejects—the rejection
message. -/
structure CDOut where
  logs : List LogEntry
  attempted : List Nat
  err : Option String
  deriving DecidableEq, Repr

/-- `cancelDuplicates`: resolve the workflow id from the current run's
`workflow_url` (`split('/').pop() || ''`, throwing
`Could not resolve workflow` when empty), exhaust the paginated listing
for each status in `['queued', 'in_progress']` merging every element into
the tree map, then process the map backward.  A rejection of the lookup
or of a listing propagates as the promise's rejection. -/
def cancelDuplicates (w : World) (selfRunId owner repo branch : String) : CDOut :=
  match w.workflowRunLookup with
  | Except.error m => ⟨[], [], some m⟩
  | Except.ok url =>
    let workflowId := (jsSplit url '/').getLastD ""
    if workflowId.length = 0 then ⟨[], [], some "Could not resolve workflow"⟩
    else
      match w.listing "queued" with
      | Except.error m => ⟨[LogEntry.info ("Workflow ID is: " ++ workflowId)], [], some m⟩
      | Except.ok qpages =>
        match w.listing "in_progress" with
        | Except.error m => ⟨[LogEntry.info ("Workflow ID is: " ++ workflowId)], [], some m⟩
        | Except.ok ipages =>
          let sorted := collectPages ipages (collectPages qpages [])
          let res := ((backward sorted).map Prod.snd).foldl
            (processEntry w selfRunId) ([], [])
          ⟨[LogEntry.info ("Workflow ID is: " ++ workflowId),
            LogEntry.info ("Found queued/in_progress workflows: " ++ toString sorted.length)]
            ++ res.1,
            res.2, none⟩

/-- `getRequiredEnv`: throw `` `${key} was not defined.` `` exactly when
the variable is `undefined`; any defined value, the empty string
included, is returned as-is. -/
def getRequiredEnv (env : String → Option String) (key : String) :
    Except String String :=
  match env key with
  | none => Except.error (key ++ " was not defined.")
  | some v => Except.ok v

/-- Observable outcome of `run()`: the logs it writes synchronously, the
`core.setFailed` message when its `catch` fires, and the result of the
`cancelDuplicates` promise when that call was reached.  The source does
not `await` the call, so the promise's rejection is recorded in `cdCall`
but can never flow into `failedWith`. -/
structure RunOutcome where
  logs : List LogEntry
  failedWith : Option String
  cdCall : Option CDOut
  deriving DecidableEq, Repr

/-- `run()`, translated branch by branch.  `core.info(token)` is the
first statement after reading the input; each `getRequiredEnv` throw is
caught by the surrounding `try`/`catch` and becomes `core.setFailed`;
the event gate, the tag/branch ref gate, the `[owner, repo] =
repository.split('/')` destructuring and the first-occurrence
`replace(branchPrefix, '')` follow the source; the final statement fires
`cancelDuplicates` without `await`. -/
def run (w : World) : RunOutcome :=
  match getRequiredEnv w.env "GITHUB_RUN_ID" with
  | Except.error m => ⟨[LogEntry.info w.getInputToken], some m, none⟩
  | Except.ok selfRunId =>
    match getRequiredEnv w.env "GITHUB_REPOSITORY" with
    | Except.error m => ⟨[LogEntry.info w.getInputToken], some m, none⟩
    | Except.ok repository =>
      match getRequiredEnv w.env "GITHUB_EVENT_NAME" with
      | Except.error m => ⟨[LogEntry.info w.getInputToken], some m, none⟩
      | Except.ok eventName =>
        if !(["push", "pull_request"].contains eventName) then
          ⟨[LogEntry.info w.getInputToken,
            LogEntry.info ("Skipping unsupported event: " ++ eventName)], none, none⟩
        else
          match getRequiredEnv w.env
              (if eventName == "pull_request" then "GITHUB_HEAD_REF" else "GITHUB_REF") with
          | Except.error m => ⟨[LogEntry.info w.getInputToken], some m, none⟩
          | Except.ok branch0 =>
            if !(eventName == "pull_request") && !(startsWithStr branch0 "refs/heads/") then
              if startsWithStr branch0 "refs/tags/" then
                ⟨[LogEntry.info w.getInputToken,
                  LogEntry.info ("Skipping tag build: " ++ branch0)], none, none⟩
              else
                ⟨[LogEntry.info w.getInputToken],
                  some (branch0 ++ " was not an expected branch ref (refs/heads/)."), none⟩
            else
              ⟨[LogEntry.info w.getInputToken,
                LogEntry.info ("Branch is " ++ jsReplaceFirst branch0 "refs/heads/" ""
                  ++ ", repo is " ++ (jsSplit repository '/').getD 1 ""
                  ++ ", and owner is " ++ (jsSplit repository '/').headD ""
                  ++ ", and id is " ++ selfRunId)],
                none,
                some (cancelDuplicates w selfRunId
                  ((jsSplit repository '/').headD "")
                  ((jsSplit repository '/').getD 1 "")
                  (jsReplaceFirst branch0 "refs/heads/" ""))⟩

example : jsSplit "o/r" '/' = ["o", "r"] := by decide
example : jsSplit "" '/' = [""] := by decide
example : (jsSplit "repos/o/r/actions/workflows/55" '/').getLastD "" = "55" := by decide
example : startsWithStr "refs/heads/main" "refs/heads/" = true := by decide
example : startsWithStr "refs/tags/v1" "refs/heads/" = false := by decide
example : jsReplaceFirst "refs/heads/main" "refs/heads/" "" = "main" := by decide
example : jsStrGE "100" "9" = false := by decide
example : jsStrGE "101" "102" = false := by decide
example : jsStrGE "102" "102" = true := by decide

/-! ### Tree-map invariants and lookup semantics -/

/-- The `TreeMap` invariant: keys strictly ascending. -/
def tmSorted (m : TreeMapModel) : Prop :=
  m.Pairwise (fun p q => p.1 < q.1)

/-- Every stored record's `run_number` is its key (the source always
calls `sorted.set(element.run_number, element)`). -/
def tmCoherent (m : TreeMapModel) : Prop :=
  ∀ p ∈ m, (Prod.snd p).run_number = p.1

theorem mem_tmSet {m : TreeMapModel} {k : Nat} {v : RunRecord} {p : Nat × RunRecord}
    (h : p ∈ tmSet m k v) : p = (k, v) ∨ p ∈ m := by
  induction m with
  | nil => simpa [tmSet] using h
  | cons hd tl ih =>
    obtain ⟨k1, v1⟩ := hd
    simp only [tmSet] at h
    split at h
    · rcases List.mem_cons.1 h with h1 | h1
      · exact Or.inl h1
      · exact Or.inr h1
    · split at h
      · rcases List.mem_cons.1 h with h1 | h1
        · exact Or.inl h1
        · exact Or.inr (List.mem_cons_of_mem _ h1)
      · rcases List.mem_cons.1 h with h1 | h1
        · exact Or.inr (by simp [h1])
        · rcases ih h1 with h2 | h2
          · exact Or.inl h2
          · exact Or.inr (List.mem_cons_of_mem _ h2)

theorem tmSorted_tmSet {m : TreeMapModel} (hm : tmSorted m) (k : Nat) (v : RunRecord) :
    tmSorted (tmSet m k v) := by
  induction m with
  | nil => simp [tmSet, tmSorted]
  | cons hd tl ih =>
    obtain ⟨k1, v1⟩ := hd
    rw [tmSorted, List.pairwise_cons] at hm
    obtain ⟨h1, h2⟩ := hm
    simp only [tmSet]
    split
    case isTrue hlt =>
      rw [tmSorted, List.pairwise_cons]
      refine ⟨?_, List.pairwise_cons.2 ⟨h1, h2⟩⟩
      intro q hq
      rcases List.mem_cons.1 hq with rfl | hq'
      · exact hlt
      · exact Nat.lt_trans hlt (h1 q hq')
    case isFalse hnlt =>
      split
      case isTrue heq =>
        rw [tmSorted, List.pairwise_cons]
        exact ⟨fun q hq => heq ▸ h1 q hq, h2⟩
      case isFalse hne =>
        rw [tmSorted, List.pairwise_cons]
        refine ⟨?_, ih h2⟩
        intro q hq
        rcases mem_tmSet hq with rfl | hq'
        · exact Nat.lt_of_le_of_ne (Nat.le_of_not_lt hnlt) (fun h => hne h.symm)
        · exact h1 q hq'

theorem tmCoherent_tmSet {m : TreeMapModel} {k : Nat} {v : RunRecord}
    (hm : tmCoherent m) (hv : v.run_number = k) : tmCoherent (tmSet m k v) := by
  intro p hp
  rcases mem_tmSet hp with rfl | hp'
  · exact hv
  · exact hm p hp'

theorem tmSorted_insertRuns (runs : List RunRecord) :
    ∀ m : TreeMapModel, tmSorted m → tmSorted (insertRuns runs m) := by
  induction runs with
  | nil => intro m hm; simpa [insertRuns] using hm
  | cons r rs ih =>
    intro m hm
    exact ih (tmSet m r.run_number r) (tmSorted_tmSet hm _ _)

theorem tmCoherent_insertRuns (runs : List RunRecord) :
    ∀ m : TreeMapModel, tmCoherent m → tmCoherent (insertRuns runs m) := by
  induction runs with
  | nil => intro m hm; simpa [insertRuns] using hm
  | cons r rs ih =>
    intro m hm
    exact ih (tmSet m r.run_number r) (tmCoherent_tmSet hm rfl)

theorem tmSorted_collectPages (pages : List PageData) :
    ∀ m : TreeMapModel, tmSorted m → tmSorted (collectPages pages m) := by
  induction pages with
  | nil => intro m hm; simpa [collectPages] using hm
  | cons p ps ih =>
    intro m hm
    exact ih (insertRuns (pageElements p) m) (tmSorted_insertRuns _ _ hm)

theorem tmCoherent_collectPages (pages : List PageData) :
    ∀ m : TreeMapModel, tmCoherent m → tmCoherent (collectPages pages m) := by
  induction pages with
  | nil => intro m hm; simpa [collectPages] using hm
  | cons p ps ih =>
    intro m hm
    exact ih (insertRuns (pageElements p) m) (tmCoherent_insertRuns _ _ hm)

theorem tmLookup_tmSet_self (m : TreeMapModel) (k : Nat) (v : RunRecord) :
    tmLookup (tmSet m k v) k = some v := by
  induction m with
  | nil => simp [tmSet, tmLookup]
  | cons hd tl ih =>
    obtain ⟨k1, v1⟩ := hd
    simp only [tmSet]
    split
    · simp [tmLookup]
    · split
      · simp [tmLookup]
      · rename_i hnlt hne
        simp [tmLookup, hne, ih]

theorem tmLookup_tmSet_ne (m : TreeMapModel) (k j : Nat) (v : RunRecord) (h : k ≠ j) :
    tmLookup (tmSet m j v) k = tmLookup m k := by
  induction m with
  | nil => simp [tmSet, tmLookup, h]
  | cons hd tl ih =>
    obtain ⟨k1, v1⟩ := hd
    simp only [tmSet]
    split
    · simp [tmLookup, h]
    · split
      case isTrue heq =>
        subst heq
        simp [tmLookup, h]
      case isFalse =>
        simp only [tmLookup]
        split
        · rfl
        · exact ih

/-! ### Last-wins merge semantics of the Collector -/

/-- The last record with a given `run_number` in a visit-ordered list of
runs, i.e. the record a later-wins merge keeps for that key. -/
def lastWith (k : Nat) (runs : List RunRecord) : Option RunRecord :=
  runs.foldl (fun acc r => if r.run_number = k then some r else acc) none

/-- Left-biased choice on optional records. -/
def orLookup (o d : Option RunRecord) : Option RunRecord :=
  match o with
  | some x => some x
  | none => d

theorem orLookup_none (o : Option RunRecord) : orLookup o none = o := by
  cases o <;> rfl

theorem foldl_lastStep (k : Nat) :
    ∀ (l : List RunRecord) (acc : Option RunRecord),
      l.foldl (fun acc r => if r.run_number = k then some r else acc) acc
        = orLookup (lastWith k l) acc := by
  intro l
  induction l with
  | nil => intro acc; simp [lastWith, orLookup]
  | cons r rs ih =>
    intro acc
    rw [List.foldl_cons, ih]
    have h2 : lastWith k (r :: rs)
        = orLookup (lastWith k rs) (if r.run_number = k then some r else none) := by
      rw [lastWith, List.foldl_cons]
      exact ih _
    rw [h2]
    cases lastWith k rs with
    | some x => simp [orLookup]
    | none =>
      simp only [orLookup]
      split <;> rfl

theorem lastWith_append (k : Nat) (xs ys : List RunRecord) :
    lastWith k (xs ++ ys) = orLookup (lastWith k ys) (lastWith k xs) := by
  rw [lastWith, List.foldl_append]
  exact foldl_lastStep k ys (lastWith k xs)

theorem tmLookup_insertRuns (k : Nat) :
    ∀ (runs : List RunRecord) (m : TreeMapModel),
      tmLookup (insertRuns runs m) k = orLookup (lastWith k runs) (tmLookup m k) := by
  intro runs
  induction runs with
  | nil => intro m; simp [insertRuns, lastWith, orLookup]
  | cons r rs ih =>
    intro m
    have hstep : insertRuns (r :: rs) m = insertRuns rs (tmSet m r.run_number r) := rfl
    rw [hstep, ih]
    have h2 : lastWith k (r :: rs)
        = orLookup (lastWith k rs) (if r.run_number = k then some r else none) := by
      rw [lastWith, List.foldl_cons]
      exact foldl_lastStep k rs _
    rw [h2]
    cases lastWith k rs with
    | some x => simp [orLookup]
    | none =>
      simp only [orLookup]
      by_cases hc : r.run_number = k
      · rw [if_pos hc, hc, tmLookup_tmSet_self]
      · rw [if_neg hc, tmLookup_tmSet_ne m k r.run_number r (fun h => hc h.symm)]

/-- All runs of a page sequence in visit order. -/
def allRuns (pages : List PageData) : List RunRecord :=
  (pages.map pageElements).flatten

theorem tmLookup_collectPages (k : Nat) :
    ∀ (pages : List PageData) (m : TreeMapModel),
      tmLookup (collectPages pages m) k
        = orLookup (lastWith k (allRuns pages)) (tmLookup m k) := by
  intro pages
  induction pages with
  | nil => intro m; simp [collectPages, allRuns, lastWith, orLookup]
  | cons p ps ih =>
    intro m
    have hstep : collectPages (p :: ps) m = collectPages ps (insertRuns (pageElements p) m) := rfl
    rw [hstep, ih, tmLookup_insertRuns]
    have hall : allRuns (p :: ps) = pageElements p ++ allRuns ps := by
      simp [allRuns]
    rw [hall, lastWith_append]
    cases lastWith k (allRuns ps) with
    | some x => simp [orLookup]
    | none =>
      cases lastWith k (pageElements p) <;> simp [orLookup]

theorem collectPages_shape (rss : List (List RunRecord)) :
    ∀ m : TreeMapModel,
      collectPages (rss.map PageData.wrappedShape) m
        = collectPages (rss.map PageData.arrayShape) m := by
  induction rss with
  | nil => intro m; rfl
  | cons r rs ih =>
    intro m
    exact ih (insertRuns r m)

/-! ### The processing loop of `cancelDuplicates` -/

theorem shouldCancel_iff (s : String) (e : RunRecord) :
    shouldCancel s e = true ↔
      jsStrGE (toString e.id) s = false
      ∧ (e.status == "completed") = false
      ∧ (e.event = "push" ∨ e.event = "pull_request") := by
  constructor
  · intro h
    by_cases h1 : jsStrGE (toString e.id) s = true
    · simp [shouldCancel, h1] at h
    · by_cases h2 : (e.status == "completed") = true
      · simp [shouldCancel, h2] at h
      · by_cases h3 : e.event = "push" ∨ e.event = "pull_request"
        · exact ⟨by simpa using h1, by simpa using h2, h3⟩
        · obtain ⟨ha, hb⟩ := not_or.1 h3
          simp [shouldCancel, h1, h2, ha, hb] at h
  · rintro ⟨h1, h2, h3⟩
    rcases h3 with h3 | h3 <;> simp [shouldCancel, h1, h2, h3]

theorem processEntry_snd (w : World) (s : String) (acc : List LogEntry × List Nat)
    (e : RunRecord) :
    (processEntry w s acc e).2 = acc.2 ++ (if shouldCancel s e then [e.id] else []) := by
  by_cases h1 : jsStrGE (toString e.id) s = true
  · simp [processEntry, shouldCancel, h1]
  · by_cases h2 : (e.status == "completed") = true
    · simp [processEntry, shouldCancel, h1, h2]
    · by_cases h3 : e.event = "push" ∨ e.event = "pull_request"
      · rcases h3 with h3 | h3 <;> simp [processEntry, shouldCancel, h1, h2, h3]
      · obtain ⟨ha, hb⟩ := not_or.1 h3
        simp [processEntry, shouldCancel, h1, h2, ha, hb]

theorem processEntry_fst (w : World) (s : String) (acc : List LogEntry × List Nat)
    (e : RunRecord) :
    (processEntry w s acc e).1 = acc.1 ++ (processEntry w s ([], []) e).1 := by
  by_cases h1 : jsStrGE (toString e.id) s = true
  · simp [processEntry, h1]
  · by_cases h2 : (e.status == "completed") = true
    · simp [processEntry, h1, h2]
    · by_cases h3 : e.event = "push" ∨ e.event = "pull_request"
      · rcases h3 with h3 | h3 <;> simp [processEntry, h1, h2, h3]
      · obtain ⟨ha, hb⟩ := not_or.1 h3
        simp [processEntry, h1, h2, ha, hb]

theorem foldl_processEntry_snd (w : World) (s : String) :
    ∀ (l : List RunRecord) (acc : List LogEntry × List Nat),
      (l.foldl (processEntry w s) acc).2
        = acc.2 ++ (l.filter (shouldCancel s)).map (fun r => r.id) := by
  intro l
  induction l with
  | nil => intro acc; simp
  | cons r rs ih =>
    intro acc
    rw [List.foldl_cons, ih, processEntry_snd]
    by_cases hc : shouldCancel s r
    · simp [hc, List.filter_cons]
    · simp [hc, List.filter_cons]

theorem foldl_processEntry_fst_mono (w : World) (s : String) :
    ∀ (l : List RunRecord) (acc : List LogEntry × List Nat) (x : LogEntry),
      x ∈ acc.1 → x ∈ (l.foldl (processEntry w s) acc).1 := by
  intro l
  induction l with
  | nil => intro acc x hx; simpa using hx
  | cons r rs ih =>
    intro acc x hx
    rw [List.foldl_cons]
    apply ih
    rw [processEntry_fst]
    exact List.mem_append_left _ hx

theorem foldl_processEntry_fst_mem (w : World) (s : String) :
    ∀ (l : List RunRecord) (acc : List LogEntry × List Nat) (e : RunRecord),
      e ∈ l → ∀ x ∈ (processEntry w s ([], []) e).1,
        x ∈ (l.foldl (processEntry w s) acc).1 := by
  intro l
  induction l with
  | nil => intro acc e he; cases he
  | cons r rs ih =>
    intro acc e he x hx
    rw [List.foldl_cons]
    rcases List.mem_cons.1 he with rfl | he'
    · apply foldl_processEntry_fst_mono
      rw [processEntry_fst]
      exact List.mem_append_right _ hx
    · exact ih _ e he' x hx

theorem warning_mem_processEntry (w : World) (s : String) (e : RunRecord) (ce : CancelErr)
    (hsc : shouldCancel s e = true) (hce : w.cancel e.id = Except.error ce) :
    LogEntry.warning ("Could not cancel run (id " ++ toString e.id ++ "): ["
        ++ toString ce.status ++ "] " ++ ce.message)
      ∈ (processEntry w s ([], []) e).1 := by
  obtain ⟨h1, h2, h3⟩ := (shouldCancel_iff s e).1 hsc
  rcases h3 with h3 | h3 <;> simp [processEntry, h1, h2, h3, cancelRun, hce]

/-! ### Reductions of `cancelDuplicates` and `run` -/

theorem cancelDuplicates_ok (w : World) (selfRunId owner repo branch url : String)
    (qpages ipages : List PageData)
    (hres : w.workflowRunLookup = Except.ok url)
    (hwid : ¬ ((jsSplit url '/').getLastD "").length = 0)
    (hq : w.listing "queued" = Except.ok qpages)
    (hi : w.listing "in_progress" = Except.ok ipages) :
    cancelDuplicates w selfRunId owner repo branch =
      ⟨[LogEntry.info ("Workflow ID is: " ++ (jsSplit url '/').getLastD ""),
        LogEntry.info ("Found queued/in_progress workflows: "
          ++ toString (collectPages ipages (collectPages qpages [])).length)]
        ++ (((backward (collectPages ipages (collectPages qpages []))).map Prod.snd).foldl
            (processEntry w selfRunId) ([], [])).1,
        (((backward (collectPages ipages (collectPages qpages []))).map Prod.snd).foldl
            (processEntry w selfRunId) ([], [])).2,
        none⟩ := by
  unfold cancelDuplicates
  rw [hres]
  simp only [hq, hi, if_neg hwid]

theorem run_logs_head (w : World) :
    ∃ t, (run w).logs = LogEntry.info w.getInputToken :: t := by
  unfold run
  repeat' split
  all_goals exact ⟨_, rfl⟩

theorem run_skips_event (w : World) (a b ev : String)
    (h1 : w.env "GITHUB_RUN_ID" = some a)
    (h2 : w.env "GITHUB_REPOSITORY" = some b)
    (h3 : w.env "GITHUB_EVENT_NAME" = some ev)
    (hc : (["push", "pull_request"].contains ev) = false) :
    run w = ⟨[LogEntry.info w.getInputToken,
      LogEntry.info ("Skipping unsupported event: " ++ ev)], none, none⟩ := by
  unfold run
  simp only [getRequiredEnv, h1, h2, h3, hc, Bool.not_false, if_true]

theorem run_skips_tag (w : World) (a b refV : String)
    (h1 : w.env "GITHUB_RUN_ID" = some a)
    (h2 : w.env "GITHUB_REPOSITORY" = some b)
    (h3 : w.env "GITHUB_EVENT_NAME" = some "push")
    (h4 : w.env "GITHUB_REF" = some refV)
    (hheads : startsWithStr refV "refs/heads/" = false)
    (htags : startsWithStr refV "refs/tags/" = true) :
    run w = ⟨[LogEntry.info w.getInputToken,
      LogEntry.info ("Skipping tag build: " ++ refV)], none, none⟩ := by
  have hc : (["push", "pull_request"].contains "push") = true := by decide
  have hbeq : (("push" : String) == "pull_request") = false := by decide
  unfold run
  simp only [getRequiredEnv, h1, h2, h3, h4, hc, hbeq, hheads, htags,
    Bool.not_true, Bool.not_false, Bool.true_and, if_true, if_false,
    Bool.false_eq_true, ite_false, ite_true]

/-! ### Concrete worlds and records used as evaluation inputs -/

/-- Environment lookup backed by an association list. -/
def envOf (l : List (String × String)) : String → Option String :=
  fun k => (l.find? (fun p => p.1 == k)).map Prod.snd

/-- A sibling run whose id (100) is numerically newer than current run 9
but lexicographically smaller as a string. -/
def recNewer : RunRecord :=
  ⟨100, 20, "queued", "push", "wu"⟩

/-- A sibling run older than the current run in both orders. -/
def recOlder : RunRecord :=
  ⟨5, 3, "queued", "push", "wu"⟩

/-- Invocation whose run-lookup reply carries an empty `workflow_url`,
making workflow resolution fail inside the un-awaited promise. -/
def wBad : World :=
  ⟨"tok",
    envOf [("GITHUB_RUN_ID", "1234"), ("GITHUB_REPOSITORY", "o/r"),
      ("GITHUB_EVENT_NAME", "push"), ("GITHUB_REF", "refs/heads/main")],
    Except.ok "",
    fun _ => Except.ok [],
    fun _ => Except.ok 202⟩

/-- A `pull_request` invocation whose head ref is tag-shaped. -/
def wPR : World :=
  ⟨"tok",
    envOf [("GITHUB_RUN_ID", "1234"), ("GITHUB_REPOSITORY", "o/r"),
      ("GITHUB_EVENT_NAME", "pull_request"), ("GITHUB_HEAD_REF", "refs/tags/v1")],
    Except.ok "repos/o/r/actions/workflows/55",
    fun _ => Except.ok [],
    fun _ => Except.ok 202⟩

/-- A `push` invocation on a tag ref. -/
def wTagPush : World :=
  ⟨"tok",
    envOf [("GITHUB_RUN_ID", "1"), ("GITHUB_REPOSITORY", "o/r"),
      ("GITHUB_EVENT_NAME", "push"), ("GITHUB_REF", "refs/tags/v1")],
    Except.ok "",
    fun _ => Except.ok [],
    fun _ => Except.ok 202⟩

/-- One listing page holding two cancellable runs (ids 100 and 101). -/
def pageE : PageData :=
  PageData.arrayShape
    [⟨100, 10, "queued", "push", "wu"⟩, ⟨101, 11, "queued", "push", "wu"⟩]

/-- Scenario E world: two targets, the cancel collaborator fails on run
id 101 and succeeds on run id 100. -/
def wE : World :=
  ⟨"tok", envOf [],
    Except.ok "repos/o/r/actions/workflows/77",
    fun st => if st == "queued" then Except.ok [pageE] else Except.ok [],
    fun id => if id == 101 then Except.error ⟨500, "boom"⟩ else Except.ok 202⟩

/-- Two worlds differing only in the `github-token` input. -/
def wTokA : World :=
  ⟨"token-a", envOf [], Except.ok "", fun _ => Except.ok [], fun _ => Except.ok 202⟩

/-- Second world of the token-noninterference pair. -/
def wTokB : World :=
  ⟨"token-b", envOf [], Except.ok "", fun _ => Except.ok [], fun _ => Except.ok 202⟩

/-- Environment defining every required variable as the empty string. -/
def envEmptyVals : String → Option String :=
  envOf [("GITHUB_RUN_ID", ""), ("GITHUB_REPOSITORY", ""), ("GITHUB_EVENT_NAME", "")]

/-- World reading `envEmptyVals`. -/
def wEmptyEnv : World :=
  ⟨"tok", envEmptyVals, Except.ok "", fun _ => Except.ok [], fun _ => Except.ok 202⟩

/-! ### Claim theorems -/

/-- Claim C1, counterexample: the source compares run ids as strings
(`runId = element.id.toString()` against the string `selfRunId`), so for
current run id 9 the sibling with numerically larger id 100 satisfies
`"100" < "9"` lexicographically, survives the filter, and is emitted as a
cancellation target although its runId is numerically greater than the
current run's. -/
theorem c1_counterexample :
    recNewer ∈ cancelTargets [(20, recNewer)] (toString 9)
    ∧ 9 ≤ recNewer.id := by
  exact ⟨by decide, by decide⟩

/-- Claim C1 (amended): for every Collected Set and current run
identifier, every record in the Duplicate Policy's cancellation output
has a runId whose decimal string is lexicographically smaller (JS string
`<`) than the current run identifier string; the comparison is
lexicographic on strings, not numeric. -/
theorem c1_amended_lexicographic (m : TreeMapModel) (selfRunId : String) (r : RunRecord)
    (h : r ∈ cancelTargets m selfRunId) :
    jsStrLT (toString r.id) selfRunId = true := by
  have h' : r ∈ ((backward m).map Prod.snd).filter (shouldCancel selfRunId) := h
  have hf := (List.mem_filter.1 h').2
  have h1 := ((shouldCancel_iff selfRunId r).1 hf).1
  unfold jsStrGE at h1
  simpa using h1

/-- Witness for C1 (amended) at a concrete input. -/
theorem c1_amended_lexicographic_witness :
    recOlder ∈ cancelTargets [(3, recOlder)] "9"
    ∧ jsStrLT (toString recOlder.id) "9" = true :=
  ⟨by decide, c1_amended_lexicographic [(3, recOlder)] "9" recOlder (by decide)⟩

/-- Claim C2 (code bug evaluation): `run()` invokes `cancelDuplicates`
without `await`, so when workflow resolution fails inside the promise
(here: the lookup reply's `workflow_url` is empty) the rejection
`Could not resolve workflow` never reaches the `try`/`catch` and
`core.setFailed` is not called (`failedWith = none`), contradicting the
claim that the condition is reported as the process's overall failure;
the abort-before-any-cancellation half does hold (`attempted = []`). -/
theorem c2_fatal_error_not_reported :
    (run wBad).failedWith = none
    ∧ (run wBad).cdCall = some ⟨[], [], some "Could not resolve workflow"⟩ := by
  exact ⟨by decide, by decide⟩

/-- Claim C3, counterexample: for a `pull_request` invocation the tag
check is skipped (`!pullRequest &&` guard), so a tag-shaped head ref
`refs/tags/v1` does not skip the operation — `cancelDuplicates` is still
invoked, although `pull_request` is an accepted trigger event and the
ref begins with the tag prefix. -/
theorem c3_counterexample :
    startsWithStr "refs/tags/v1" "refs/tags/" = true
    ∧ (["push", "pull_request"].contains "pull_request") = true
    ∧ (run wPR).cdCall.isSome = true := by
  exact ⟨by decide, by decide, by decide⟩

/-- Claim C3 (amended): for `push` invocations whose ref lacks the
branch prefix and begins with the tag prefix, the whole operation is
skipped (no `cancelDuplicates` call, no failure); and any event name
outside the accepted set also skips the whole operation.  For
`pull_request` invocations the tag check is not performed. -/
theorem c3_amended_tag_skip (w : World) (a b refV : String) :
    (w.env "GITHUB_RUN_ID" = some a → w.env "GITHUB_REPOSITORY" = some b →
      w.env "GITHUB_EVENT_NAME" = some "push" → w.env "GITHUB_REF" = some refV →
      startsWithStr refV "refs/heads/" = false → startsWithStr refV "refs/tags/" = true →
      (run w).cdCall = none ∧ (run w).failedWith = none)
    ∧ (∀ ev, w.env "GITHUB_RUN_ID" = some a → w.env "GITHUB_REPOSITORY" = some b →
        w.env "GITHUB_EVENT_NAME" = some ev →
        (["push", "pull_request"].contains ev) = false →
        (run w).cdCall = none ∧ (run w).failedWith = none) := by
  constructor
  · intro h1 h2 h3 h4 hh ht
    rw [run_skips_tag w a b refV h1 h2 h3 h4 hh ht]
    exact ⟨rfl, rfl⟩
  · intro ev h1 h2 h3 hc
    rw [run_skips_event w a b ev h1 h2 h3 hc]
    exact ⟨rfl, rfl⟩

/-- Witness for C3 (amended) at a concrete push-on-tag invocation. -/
theorem c3_amended_tag_skip_witness :
    wTagPush.env "GITHUB_RUN_ID" = some "1"
    ∧ startsWithStr "refs/tags/v1" "refs/heads/" = false
    ∧ startsWithStr "refs/tags/v1" "refs/tags/" = true
    ∧ ((run wTagPush).cdCall = none ∧ (run wTagPush).failedWith = none) :=
  ⟨rfl, by decide, by decide,
    (c3_amended_tag_skip wTagPush "1" "o/r" "refs/tags/v1").1 rfl rfl rfl rfl
      (by decide) (by decide)⟩

/-- Claim C4: when workflow resolution and both listings succeed, the
operation completes without error regardless of how the cancel
collaborator behaves, a cancel is attempted on every policy target (a
failure on one target never prevents the rest), and each failing target
is logged with a warning carrying its id, status and message. -/
theorem c4_cancel_failures_isolated (w : World)
    (selfRunId owner repo branch url : String) (qpages ipages : List PageData)
    (hres : w.workflowRunLookup = Except.ok url)
    (hwid : ¬ ((jsSplit url '/').getLastD "").length = 0)
    (hq : w.listing "queued" = Except.ok qpages)
    (hi : w.listing "in_progress" = Except.ok ipages) :
    (cancelDuplicates w selfRunId owner repo branch).err = none
    ∧ (cancelDuplicates w selfRunId owner repo branch).attempted
        = (cancelTargets (collectPages ipages (collectPages qpages [])) selfRunId).map
            (fun r => r.id)
    ∧ ∀ r ∈ cancelTargets (collectPages ipages (collectPages qpages [])) selfRunId,
        ∀ ce, w.cancel r.id = Except.error ce →
          LogEntry.warning ("Could not cancel run (id " ++ toString r.id ++ "): ["
              ++ toString ce.status ++ "] " ++ ce.message)
            ∈ (cancelDuplicates w selfRunId owner repo branch).logs := by
  rw [cancelDuplicates_ok w selfRunId owner repo branch url qpages ipages hres hwid hq hi]
  refine ⟨rfl, ?_, ?_⟩
  · rw [foldl_processEntry_snd]
    simp [cancelTargets]
  · intro r hr ce hce
    have hr' : r ∈ ((backward (collectPages ipages (collectPages qpages []))).map
        Prod.snd).filter (shouldCancel selfRunId) := hr
    have hmem := List.mem_filter.1 hr'
    have hw := warning_mem_processEntry w selfRunId r ce hmem.2 hce
    exact List.mem_append_right _
      (foldl_processEntry_fst_mem w selfRunId _ ([], []) r hmem.1 _ hw)

/-- Witness for C4: Scenario E — two targets, the first visited (id 101)
fails, the second (id 100) succeeds; both are attempted and the
operation completes. -/
theorem c4_cancel_failures_isolated_witness :
    wE.workflowRunLookup = Except.ok "repos/o/r/actions/workflows/77"
    ∧ ¬ ((jsSplit "repos/o/r/actions/workflows/77" '/').getLastD "").length = 0
    ∧ wE.listing "queued" = Except.ok [pageE]
    ∧ wE.listing "in_progress" = Except.ok []
    ∧ ((cancelDuplicates wE "102" "o" "r" "main").err = none
      ∧ (cancelDuplicates wE "102" "o" "r" "main").attempted
          = (cancelTargets (collectPages [] (collectPages [pageE] [])) "102").map
              (fun r => r.id)
      ∧ ∀ r ∈ cancelTargets (collectPages [] (collectPages [pageE] [])) "102",
          ∀ ce, wE.cancel r.id = Except.error ce →
            LogEntry.warning ("Could not cancel run (id " ++ toString r.id ++ "): ["
                ++ toString ce.status ++ "] " ++ ce.message)
              ∈ (cancelDuplicates wE "102" "o" "r" "main").logs) :=
  ⟨rfl, by decide, rfl, rfl,
    c4_cancel_failures_isolated wE "102" "o" "r" "main"
      "repos/o/r/actions/workflows/77" [pageE] [] rfl (by decide) rfl rfl⟩

/-- Claim C5: no record with the terminal `completed` status and no
record whose trigger event lies outside the accepted set ever appears in
the Duplicate Policy's output. -/
theorem c5_no_completed_no_foreign_event (m : TreeMapModel) (selfRunId : String)
    (r : RunRecord) (h : r ∈ cancelTargets m selfRunId) :
    r.status ≠ "completed" ∧ (r.event = "push" ∨ r.event = "pull_request") := by
  have h' : r ∈ ((backward m).map Prod.snd).filter (shouldCancel selfRunId) := h
  have hf := (List.mem_filter.1 h').2
  obtain ⟨h1, h2, h3⟩ := (shouldCancel_iff selfRunId r).1 hf
  refine ⟨?_, h3⟩
  intro hq
  rw [hq] at h2
  simp at h2

/-- Witness for C5 at a concrete input. -/
theorem c5_no_completed_no_foreign_event_witness :
    recOlder ∈ cancelTargets [(3, recOlder)] "9"
    ∧ (recOlder.status ≠ "completed"
      ∧ (recOlder.event = "push" ∨ recOlder.event = "pull_request")) :=
  ⟨by decide, c5_no_completed_no_foreign_event [(3, recOlder)] "9" recOlder (by decide)⟩

/-- Claim C6: over any Collected Set built by the Collector, the
Duplicate Policy's output sequence is strictly descending by
`run_number` (the backward traversal visits keys strictly descending and
filtering preserves that order). -/
theorem c6_output_strictly_descending (qpages ipages : List PageData)
    (selfRunId : String) :
    (cancelTargets (collectPages ipages (collectPages qpages [])) selfRunId).Pairwise
      (fun a b => b.run_number < a.run_number) := by
  have hs : tmSorted (collectPages ipages (collectPages qpages [])) :=
    tmSorted_collectPages _ _ (tmSorted_collectPages _ _ (by simp [tmSorted]))
  have hc : tmCoherent (collectPages ipages (collectPages qpages [])) :=
    tmCoherent_collectPages _ _ (tmCoherent_collectPages _ _ (by intro p hp; cases hp))
  have hs2 : (collectPages ipages (collectPages qpages [])).Pairwise
      (fun p q => p.2.run_number < q.2.run_number) :=
    hs.imp_of_mem (fun {p q} hp hq hlt => by rw [hc p hp, hc q hq]; exact hlt)
  have hs3 : (backward (collectPages ipages (collectPages qpages []))).Pairwise
      (fun p q => q.2.run_number < p.2.run_number) := by
    rw [backward, List.pairwise_reverse]
    exact hs2
  have hs4 : ((backward (collectPages ipages (collectPages qpages []))).map
      Prod.snd).Pairwise (fun a b => b.run_number < a.run_number) := by
    rw [List.pairwise_map]
    exact hs3
  exact hs4.sublist (List.filter_sublist _)

/-- Claim C7: the Collector merges every run of every page for the two
tracked statuses into a single map keyed by `run_number` with later
records overwriting earlier ones (lookup returns the last record with
that key in visit order), and the wrapped page shape is unwrapped so
that collecting wrapped pages equals collecting the same runs in the
expected array shape. -/
theorem c7_merge_last_wins_and_unwrap (qpages ipages : List PageData) (k : Nat) :
    tmLookup (collectPages ipages (collectPages qpages [])) k
      = lastWith k (allRuns qpages ++ allRuns ipages)
    ∧ ∀ rss : List (List RunRecord),
        collectPages (rss.map PageData.wrappedShape) []
          = collectPages (rss.map PageData.arrayShape) [] := by
  constructor
  · rw [tmLookup_collectPages, tmLookup_collectPages, lastWith_append]
    rw [show tmLookup ([] : TreeMapModel) k = none from rfl, orLookup_none]
  · intro rss
    exact collectPages_shape rss []

/-- Claim C8: the Duplicate Policy is a pure function — the same
Collected Set and current run identifier give the same ordered output on
every application, the empty Collected Set yields the empty output, and
re-filtering the output by the policy's own rules changes nothing. -/
theorem c8_policy_deterministic (m : TreeMapModel) (selfRunId : String) :
    cancelTargets m selfRunId = cancelTargets m selfRunId
    ∧ cancelTargets [] selfRunId = []
    ∧ (cancelTargets m selfRunId).filter (shouldCancel selfRunId)
        = cancelTargets m selfRunId := by
  refine ⟨rfl, rfl, ?_⟩
  rw [cancelTargets, List.filter_filter]
  simp

/-- Claim C9: `core.info(token)` is the first log line of every
invocation, so the observable log starts with the verbatim secret token
and two invocations differing only in the token produce different
logs. -/
theorem c9_token_logged_first (w1 w2 : World)
    (h : w1.getInputToken ≠ w2.getInputToken) :
    (run w1).logs.head? = some (LogEntry.info w1.getInputToken)
    ∧ (run w1).logs ≠ (run w2).logs := by
  obtain ⟨t1, h1⟩ := run_logs_head w1
  obtain ⟨t2, h2⟩ := run_logs_head w2
  refine ⟨by rw [h1]; rfl, ?_⟩
  intro heq
  rw [h1, h2] at heq
  injection heq with hh ht
  injection hh with htok
  exact h htok

/-- Witness for C9 on two concrete worlds differing only in token. -/
theorem c9_token_logged_first_witness :
    wTokA.getInputToken ≠ wTokB.getInputToken
    ∧ ((run wTokA).logs.head? = some (LogEntry.info wTokA.getInputToken)
      ∧ (run wTokA).logs ≠ (run wTokB).logs) :=
  ⟨by decide, c9_token_logged_first wTokA wTokB (by decide)⟩

/-- Claim C10: `getRequiredEnv` fails exactly when the variable is
undefined; any defined value — the empty string included — is returned
as-is, and an invocation whose required variables are all set to the
empty string does not take the fatal missing-input path (it proceeds to
the event gate and skips cleanly). -/
theorem c10_empty_env_value_accepted (env : String → Option String) (key : String)
    (w : World) :
    (∀ v, env key = some v → getRequiredEnv env key = Except.ok v)
    ∧ (env key = none → getRequiredEnv env key = Except.error (key ++ " was not defined."))
    ∧ (w.env "GITHUB_RUN_ID" = some "" → w.env "GITHUB_REPOSITORY" = some "" →
        w.env "GITHUB_EVENT_NAME" = some "" →
        (run w).failedWith = none ∧ (run w).cdCall = none) := by
  refine ⟨?_, ?_, ?_⟩
  · intro v hv
    unfold getRequiredEnv
    rw [hv]
  · intro hv
    unfold getRequiredEnv
    rw [hv]
  · intro h1 h2 h3
    rw [run_skips_event w "" "" "" h1 h2 h3 (by decide)]
    exact ⟨rfl, rfl⟩

/-- Witness for C10 on a concrete environment defining every required
variable as the empty string. -/
theorem c10_empty_env_value_accepted_witness :
    envEmptyVals "GITHUB_RUN_ID" = some ""
    ∧ getRequiredEnv envEmptyVals "GITHUB_RUN_ID" = Except.ok ""
    ∧ ((run wEmptyEnv).failedWith = none ∧ (run wEmptyEnv).cdCall = none) :=
  ⟨rfl,
    (c10_empty_env_value_accepted envEmptyVals "GITHUB_RUN_ID" wEmptyEnv).1 "" rfl,
    (c10_empty_env_value_accepted envEmptyVals "GITHUB_RUN_ID" wEmptyEnv).2.2 rfl rfl rfl⟩

end CancelPreviousRuns
